import Mathlib

/-!
# Verification of the figure generator (`src/generator/generators.cpp`)

Shallow embedding of the triangulated-primitive generator.  The C++ code
computes with `float`/`double`; here machine floating point is idealised as
exact rational arithmetic (`ℚ`), and the transcendental library functions
`sin`, `cos`, `sqrt` together with the constant `M_PI` are abstracted as
parameters (bundled in `Env`): every structural statement below (triangle
counts, emission order, index arithmetic, round-trips) is proved for *all*
instantiations of these parameters, hence in particular for the real
`sin`/`cos`/`sqrt`/`π`.

File output is modelled as a list of records (`Line`): each `fprintf` of a
point becomes a `Line.pt` record, each header or separator line (such as
`"sphere"` or `"normals"`) becomes a `Line.mark` record.  A point line of
the form `"%f %f %f"` can never coincide with the literal line `"normals"`,
which the distinct constructors capture.

`std::vector::operator[]` performs no bounds check in the source; an
out-of-range access is modelled by `List.getD` with a junk default value
(the code reads *something* and continues; it never signals an error).
-/

namespace Gen

/-- `struct Point`: three coordinates.  `float` idealised as `ℚ`. -/
structure Point where
  x : ℚ
  y : ℚ
  z : ℚ
deriving DecidableEq, Repr

/-- `struct Triangle`: an ordered triple of points. -/
structure Triangle where
  P1 : Point
  P2 : Point
  P3 : Point
deriving DecidableEq, Repr

/-- `struct Rectangle`: four corner points. -/
structure Rectangle where
  P1 : Point
  P2 : Point
  P3 : Point
  P4 : Point
deriving DecidableEq, Repr

/-- `struct Box`: two rectangles. -/
structure Box where
  top : Rectangle
  bottom : Rectangle
deriving DecidableEq, Repr

/-- `struct Cone` (also the layout of `struct Cylinder`). -/
structure Cone where
  rad : ℚ
  height : ℚ
  slices : ℕ
  «stacks» : ℕ
deriving DecidableEq, Repr

/-- `struct Cylinder`. -/
structure Cylinder where
  rad : ℚ
  height : ℚ
  slices : ℕ
  «stacks» : ℕ
deriving DecidableEq, Repr

/-- `struct Sphere`. -/
structure Sphere where
  rad : ℚ
  slices : ℕ
  «stacks» : ℕ
deriving DecidableEq, Repr

/-- Abstracted libm functions and `M_PI`; instantiated by real
`sin`/`cos`/`sqrt`/`π` in the intended semantics. -/
structure Env where
  sinf : ℚ → ℚ
  cosf : ℚ → ℚ
  sqrtf : ℚ → ℚ
  pi : ℚ

/-- A concrete environment used to evaluate the model on sample inputs. -/
def testEnv : Env := ⟨fun q => q, fun q => 1 - q, fun q => q, 3⟩

/-- `operator* (float s, struct Point A)`: scalar times point
(`Point(A.x * s, A.y * s, A.z * s)`). -/
def pmul (s : ℚ) (A : Point) : Point :=
  ⟨A.x * s, A.y * s, A.z * s⟩

/-- `operator+ (struct Point A, struct Point B)`. -/
def padd (A B : Point) : Point :=
  ⟨A.x + B.x, A.y + B.y, A.z + B.z⟩

/-- `Point(0, 0, 0)`. -/
def pzero : Point := ⟨0, 0, 0⟩

/-- `norm (struct Point v)`: `sqrt(v.x*v.x + v.y*v.y + v.z*v.z)`. -/
def norm (E : Env) (v : Point) : ℚ :=
  E.sqrtf (v.x * v.x + v.y * v.y + v.z * v.z)

/-- `dist (A, B)`: `norm((-1 * A) + B)`. -/
def dist (E : Env) (A B : Point) : ℚ :=
  norm E (padd (pmul (-1) A) B)

/-- `normalize (A)`: `1 / norm(A) * A`. -/
def normalize (E : Env) (A : Point) : Point :=
  pmul (1 / norm E A) A

/-!
## 4×4 matrix transform (`mat_dot_product_MP` … `mult_MPM`)

The source loops run a fixed four iterations accumulating into `ret`
starting from `Point(0,0,0)`; they are unrolled here in the same
left-to-right order.
-/

/-- `mat_dot_product_MP`: `ret = Σ_I M[i][I] * P[I][j]`, accumulated from
`Point(0,0,0)` for `I = 0,1,2,3`. -/
def mat_dot_product_MP (M : Fin 4 → Fin 4 → ℚ) (P : Fin 4 → Fin 4 → Point)
    (i j : Fin 4) : Point :=
  padd (padd (padd (padd pzero (pmul (M i 0) (P 0 j)))
    (pmul (M i 1) (P 1 j))) (pmul (M i 2) (P 2 j))) (pmul (M i 3) (P 3 j))

/-- `mat_dot_product_PM`: `ret = Σ_I M[I][j] * P[i][I]`, accumulated from
`Point(0,0,0)` for `I = 0,1,2,3`. -/
def mat_dot_product_PM (P : Fin 4 → Fin 4 → Point) (M : Fin 4 → Fin 4 → ℚ)
    (i j : Fin 4) : Point :=
  padd (padd (padd (padd pzero (pmul (M 0 j) (P i 0)))
    (pmul (M 1 j) (P i 1))) (pmul (M 2 j) (P i 2))) (pmul (M 3 j) (P i 3))

/-- `mult_MP (M, P, r)`: fills `r[i][j] = mat_dot_product_MP(M, P, i, j)`. -/
def mult_MP (M : Fin 4 → Fin 4 → ℚ) (P : Fin 4 → Fin 4 → Point) :
    Fin 4 → Fin 4 → Point :=
  fun i j => mat_dot_product_MP M P i j

/-- `mult_PM (P, M, r)`: fills `r[i][j] = mat_dot_product_PM(P, M, i, j)`. -/
def mult_PM (P : Fin 4 → Fin 4 → Point) (M : Fin 4 → Fin 4 → ℚ) :
    Fin 4 → Fin 4 → Point :=
  fun i j => mat_dot_product_PM P M i j

/-- `mult_MPM (M, P, r)`: `tmp = M·P` then `r = tmp·M` (note: the second
factor is `M` itself, not its transpose). -/
def mult_MPM (M : Fin 4 → Fin 4 → ℚ) (P : Fin 4 → Fin 4 → Point) :
    Fin 4 → Fin 4 → Point :=
  mult_PM (mult_MP M P) M

/-- The fixed cubic Bezier basis matrix `M` of
`gen_bezier_patch_write_intern`. -/
def bezierM : Fin 4 → Fin 4 → ℚ :=
  ![![-1, 3, -3, 1], ![3, -6, 3, 0], ![-3, 3, 0, 0], ![1, 0, 0, 0]]

/-- The same basis matrix as a Mathlib matrix, for stating the
mathematical product `M * P * Mᵀ`. -/
def bezierMmat : Matrix (Fin 4) (Fin 4) ℚ :=
  !![-1, 3, -3, 1; 3, -6, 3, 0; -3, 3, 0, 0; 1, 0, 0, 0]

/-- One coordinate of a 4×4 point matrix, as a Mathlib matrix. -/
def coordMat (f : Point → ℚ) (P : Fin 4 → Fin 4 → Point) :
    Matrix (Fin 4) (Fin 4) ℚ :=
  Matrix.of fun i j => f (P i j)

/-!
## Output model

One record per output line: `fprintf(outf, "%f %f %f\n", …)` becomes a
`Line.pt` record, a header/separator line becomes a `Line.mark` record.
-/

/-- One line of the text output. -/
inductive Line where
  | pt (p : Point)
  | mark (s : String)
deriving DecidableEq, Repr

/-- `gen_triangle_write_intern`: writes the three corner point lines. -/
def gen_triangle_write_intern (tri : Triangle) : List Line :=
  [Line.pt tri.P1, Line.pt tri.P2, Line.pt tri.P3]

/-- Serialisation of a triangle sequence: each triangle contributes its
three point lines, in emission order. -/
def linesOfTris (ts : List Triangle) : List Line :=
  ts.flatMap gen_triangle_write_intern

/-- The ordered list of position triplets written for a triangle
sequence (three per triangle, in emission order). -/
def triPoints (ts : List Triangle) : List Point :=
  ts.flatMap fun t => [t.P1, t.P2, t.P3]

/-!
## Planar subdivider and box
-/

/-- `gen_rectangle_write_nodivs_intern`: the fixed diagonal split of a
quadrilateral into `Triangle(P1,P2,P3)` and `Triangle(P3,P2,P4)`. -/
def gen_rectangle_write_nodivs_intern (rect : Rectangle) : List Triangle :=
  [⟨rect.P1, rect.P2, rect.P3⟩, ⟨rect.P3, rect.P2, rect.P4⟩]

/-- `gen_rectangle_write_intern`: subdivides the quad into an
`ndivs × ndivs` grid (the C loops run `i, j = 1 … ndivs`; here they are
reindexed to `i, j = 0 … ndivs-1`, so the source factors `i-1` and `i`
become `i` and `i+1`). -/
def gen_rectangle_write_intern (E : Env) (rect : Rectangle) (ndivs : ℕ) :
    List Triangle :=
  let vw := normalize E (padd rect.P3 (pmul (-1) rect.P1))
  let vh := normalize E (padd rect.P2 (pmul (-1) rect.P1))
  let w := dist E rect.P3 rect.P1 / (ndivs : ℚ)
  let h := dist E rect.P2 rect.P1 / (ndivs : ℚ)
  (List.range ndivs).flatMap fun i =>
    (List.range ndivs).flatMap fun j =>
      let P1 := padd (padd rect.P1 (pmul ((i : ℚ) * w) vw)) (pmul ((j : ℚ) * h) vh)
      let P2 := padd (padd rect.P1 (pmul ((i : ℚ) * w) vw)) (pmul (((j : ℚ) + 1) * h) vh)
      let P3 := padd (padd rect.P1 (pmul (((i : ℚ) + 1) * w) vw)) (pmul ((j : ℚ) * h) vh)
      let P4 := padd (padd rect.P1 (pmul (((i : ℚ) + 1) * w) vw)) (pmul (((j : ℚ) + 1) * h) vh)
      gen_rectangle_write_nodivs_intern ⟨P1, P2, P3, P4⟩

/-- The corner points of grid cell `(i, j)` of the subdivision (same
formulas as `gen_rectangle_write_intern`), used to state claims about
the per-cell triangles. -/
def subdivCell (E : Env) (rect : Rectangle) (ndivs : ℕ) (i j : ℕ) :
    Rectangle :=
  let vw := normalize E (padd rect.P3 (pmul (-1) rect.P1))
  let vh := normalize E (padd rect.P2 (pmul (-1) rect.P1))
  let w := dist E rect.P3 rect.P1 / (ndivs : ℚ)
  let h := dist E rect.P2 rect.P1 / (ndivs : ℚ)
  ⟨padd (padd rect.P1 (pmul ((i : ℚ) * w) vw)) (pmul ((j : ℚ) * h) vh),
   padd (padd rect.P1 (pmul ((i : ℚ) * w) vw)) (pmul (((j : ℚ) + 1) * h) vh),
   padd (padd rect.P1 (pmul (((i : ℚ) + 1) * w) vw)) (pmul ((j : ℚ) * h) vh),
   padd (padd rect.P1 (pmul (((i : ℚ) + 1) * w) vw)) (pmul (((j : ℚ) + 1) * h) vh)⟩

/-- `gen_box_write_intern`: six faces, each through the planar subdivider,
in source order (back left, back right, base, front left, front right,
top), with `p1…p4` the top corners and `p5…p8` the bottom corners. -/
def gen_box_write_intern (E : Env) (box : Box) (ndivs : ℕ) : List Triangle :=
  gen_rectangle_write_intern E ⟨box.top.P1, box.bottom.P1, box.top.P2, box.bottom.P2⟩ ndivs
    ++ gen_rectangle_write_intern E ⟨box.top.P3, box.bottom.P3, box.top.P1, box.bottom.P1⟩ ndivs
    ++ gen_rectangle_write_intern E ⟨box.bottom.P3, box.bottom.P4, box.bottom.P1, box.bottom.P2⟩ ndivs
    ++ gen_rectangle_write_intern E ⟨box.top.P2, box.bottom.P2, box.top.P4, box.bottom.P4⟩ ndivs
    ++ gen_rectangle_write_intern E ⟨box.top.P4, box.bottom.P4, box.top.P3, box.bottom.P3⟩ ndivs
    ++ gen_rectangle_write_intern E box.top ndivs

/-!
## Cone (canonical variant, `gen_cone_write_intern`)
-/

/-- `gen_cone_write_intern`: per slice a tip triangle, a base fan
triangle, and `stacks-1` side quadrilaterals. -/
def gen_cone_write_intern (E : Env) (c : Cone) : List Triangle :=
  let a : ℚ := 2 * E.pi / (c.slices : ℚ)
  let st : ℚ := (c.stacks : ℚ)
  (List.range c.slices).flatMap fun i =>
    let I : ℚ := (i : ℚ)
    let R := c.rad / st
    let H := c.height * (st - 1) / st
    let tip : Triangle :=
      ⟨⟨0, c.height, 0⟩,
       ⟨R * E.sinf (I * a), H, R * E.cosf (I * a)⟩,
       ⟨R * E.sinf ((I + 1) * a), H, R * E.cosf ((I + 1) * a)⟩⟩
    let base : Triangle :=
      ⟨⟨c.rad * E.sinf (I * a), 0, c.rad * E.cosf (I * a)⟩,
       ⟨0, 0, 0⟩,
       ⟨c.rad * E.sinf ((I + 1) * a), 0, c.rad * E.cosf ((I + 1) * a)⟩⟩
    tip :: base ::
      (List.range (c.stacks - 1)).flatMap fun j =>
        let J : ℚ := (j : ℚ)
        let y := c.height * (J / st)
        let y1 := c.height * ((J + 1) / st)
        let r := c.rad * (st - J) / st
        let r1 := c.rad * (st - J - 1) / st
        gen_rectangle_write_nodivs_intern
          ⟨⟨r1 * E.sinf (I * a), y1, r1 * E.cosf (I * a)⟩,
           ⟨r * E.sinf (I * a), y, r * E.cosf (I * a)⟩,
           ⟨r1 * E.sinf ((I + 1) * a), y1, r1 * E.cosf ((I + 1) * a)⟩,
           ⟨r * E.sinf ((I + 1) * a), y, r * E.cosf ((I + 1) * a)⟩⟩

/-- The per-slice triangle group of C6, phrased with the spec formulas:
tip with apex `(0, height, 0)` and ring radius `rad/stacks` at height
`height*(stacks-1)/stacks`; a base fan triangle at `y = 0`; and
`stacks-1` side quadrilaterals whose lower/upper radii at stack index
`j` are `rad*(stacks-j)/stacks` and `rad*(stacks-j-1)/stacks` at heights
`height*j/stacks` and `height*(j+1)/stacks`. -/
def claimC6_slice (E : Env) (c : Cone) (i : ℕ) : List Triangle :=
  let a : ℚ := 2 * E.pi / (c.slices : ℚ)
  let st : ℚ := (c.stacks : ℚ)
  let I : ℚ := (i : ℚ)
  ⟨⟨0, c.height, 0⟩,
   ⟨c.rad / st * E.sinf (I * a), c.height * (st - 1) / st, c.rad / st * E.cosf (I * a)⟩,
   ⟨c.rad / st * E.sinf ((I + 1) * a), c.height * (st - 1) / st, c.rad / st * E.cosf ((I + 1) * a)⟩⟩
  :: ⟨⟨c.rad * E.sinf (I * a), 0, c.rad * E.cosf (I * a)⟩,
      ⟨0, 0, 0⟩,
      ⟨c.rad * E.sinf ((I + 1) * a), 0, c.rad * E.cosf ((I + 1) * a)⟩⟩
  :: ((List.range (c.stacks - 1)).flatMap fun j =>
      let J : ℚ := (j : ℚ)
      let yLow : ℚ := c.height * J / st
      let yHigh : ℚ := c.height * (J + 1) / st
      let rLow : ℚ := c.rad * (st - J) / st
      let rHigh : ℚ := c.rad * (st - J - 1) / st
      [⟨⟨rHigh * E.sinf (I * a), yHigh, rHigh * E.cosf (I * a)⟩,
        ⟨rLow * E.sinf (I * a), yLow, rLow * E.cosf (I * a)⟩,
        ⟨rHigh * E.sinf ((I + 1) * a), yHigh, rHigh * E.cosf ((I + 1) * a)⟩⟩,
       ⟨⟨rHigh * E.sinf ((I + 1) * a), yHigh, rHigh * E.cosf ((I + 1) * a)⟩,
        ⟨rLow * E.sinf (I * a), yLow, rLow * E.cosf (I * a)⟩,
        ⟨rLow * E.sinf ((I + 1) * a), yLow, rLow * E.cosf ((I + 1) * a)⟩⟩])

/-!
## Cylinder
-/

/-- `gen_cylinder_write_intern`: per slice, the base fan triangle, then
`stacks` side quadrilaterals, then the top fan triangle. -/
def gen_cylinder_write_intern (E : Env) (c : Cylinder) : List Triangle :=
  let a : ℚ := 2 * E.pi / (c.slices : ℚ)
  let O : Point := ⟨0, -c.height / 2, 0⟩
  let C : Point := ⟨0, c.height / 2, 0⟩
  (List.range c.slices).flatMap fun i =>
    let I : ℚ := (i : ℚ)
    let xi := c.rad * E.sinf (I * a)
    let zi := c.rad * E.cosf (I * a)
    let xi1 := c.rad * E.sinf ((I + 1) * a)
    let zi1 := c.rad * E.cosf ((I + 1) * a)
    let PiB : Point := ⟨xi, -c.height / 2, zi⟩
    let Pi1B : Point := ⟨xi1, -c.height / 2, zi1⟩
    let PiT : Point := ⟨xi, c.height / 2, zi⟩
    let Pi1T : Point := ⟨xi1, c.height / 2, zi1⟩
    let Bi : Triangle := ⟨PiB, O, Pi1B⟩
    let Ti : Triangle := ⟨C, PiT, Pi1T⟩
    Bi :: (((List.range c.stacks).flatMap fun j =>
      let dh := c.height / (c.stacks : ℚ)
      let y13 := ((j : ℚ) + 1) * dh
      let y24 := (j : ℚ) * dh
      gen_rectangle_write_nodivs_intern
        ⟨padd PiB ⟨0, y13, 0⟩, padd PiB ⟨0, y24, 0⟩,
         padd Pi1B ⟨0, y13, 0⟩, padd Pi1B ⟨0, y24, 0⟩⟩) ++ [Ti])

/-- The per-slice triangle group of C7: the base fan triangle in order
(ring-point, center, ring-point-next), `stacks` side quadrilaterals each
split into two triangles, and the top fan triangle in order
(center, ring-point, ring-point-next). -/
def claimC7_slice (E : Env) (c : Cylinder) (i : ℕ) : List Triangle :=
  let a : ℚ := 2 * E.pi / (c.slices : ℚ)
  let I : ℚ := (i : ℚ)
  let ringPt : Point := ⟨c.rad * E.sinf (I * a), -c.height / 2, c.rad * E.cosf (I * a)⟩
  let ringPtNext : Point := ⟨c.rad * E.sinf ((I + 1) * a), -c.height / 2, c.rad * E.cosf ((I + 1) * a)⟩
  let baseCenter : Point := ⟨0, -c.height / 2, 0⟩
  let topCenter : Point := ⟨0, c.height / 2, 0⟩
  let ringPtTop : Point := ⟨c.rad * E.sinf (I * a), c.height / 2, c.rad * E.cosf (I * a)⟩
  let ringPtNextTop : Point := ⟨c.rad * E.sinf ((I + 1) * a), c.height / 2, c.rad * E.cosf ((I + 1) * a)⟩
  ⟨ringPt, baseCenter, ringPtNext⟩
    :: (((List.range c.stacks).flatMap fun j =>
      let dh := c.height / (c.stacks : ℚ)
      let quad : Rectangle :=
        ⟨padd ringPt ⟨0, ((j : ℚ) + 1) * dh, 0⟩, padd ringPt ⟨0, (j : ℚ) * dh, 0⟩,
         padd ringPtNext ⟨0, ((j : ℚ) + 1) * dh, 0⟩, padd ringPtNext ⟨0, (j : ℚ) * dh, 0⟩⟩
      [⟨quad.P1, quad.P2, quad.P3⟩, ⟨quad.P3, quad.P2, quad.P4⟩])
      ++ [⟨topCenter, ringPtTop, ringPtNextTop⟩])

/-!
## Sphere
-/

/-- The vertex the source pushes for stack step `i`, slice step `j`:
`lat = (i / stacks)·π`, `lon = (j / slices)·2·π`,
`(rad·cos lon·sin lat, rad·cos lat, rad·sin lon·sin lat)`. -/
def sphereVert (E : Env) (sph : Sphere) (i j : ℕ) : Point :=
  let lat : ℚ := (i : ℚ) / (sph.stacks : ℚ) * E.pi
  let lon : ℚ := (j : ℚ) / (sph.slices : ℚ) * 2 * E.pi
  ⟨sph.rad * E.cosf lon * E.sinf lat,
   sph.rad * E.cosf lat,
   sph.rad * E.sinf lon * E.sinf lat⟩

/-- The `verts` vector: the double loop `i = 0 … stacks`,
`j = 0 … slices` pushing `Point(x, y, z)` (row-major, `j` inner). -/
def sphereVerts (E : Env) (sph : Sphere) : List Point :=
  (List.range (sph.stacks + 1)).flatMap fun i =>
    (List.range (sph.slices + 1)).map fun j => sphereVert E sph i j

/-- The `normals` vector: the same loop pushing
`normalize(Point(x, y, z))`. -/
def sphereNormals (E : Env) (sph : Sphere) : List Point :=
  (List.range (sph.stacks + 1)).flatMap fun i =>
    (List.range (sph.slices + 1)).map fun j => normalize E (sphereVert E sph i j)

/-- One step of the sphere emission loop: the two triangles
`(vs[i], vs[i+S+1], vs[i+S])` and `(vs[i+S+1], vs[i], vs[i+1])`
(`operator[]` is unchecked; out-of-range reads are modelled by the
`getD` default). -/
def sphereStrip (vs : List Point) (S i : ℕ) : List Triangle :=
  [⟨vs.getD i pzero, vs.getD (i + S + 1) pzero, vs.getD (i + S) pzero⟩,
   ⟨vs.getD (i + S + 1) pzero, vs.getD i pzero, vs.getD (i + 1) pzero⟩]

/-- The triangle emission loop `for i = 0 … len-1` over a vertex
vector. -/
def sphereTris (vs : List Point) (S len : ℕ) : List Triangle :=
  (List.range len).flatMap (sphereStrip vs S)

/-- `gen_sphere_write_intern`: geometry triangles, the literal `normals`
separator line, then the normal triangles over the same index walk with
`len = slices * stacks + slices`. -/
def gen_sphere_write_intern (E : Env) (sph : Sphere) : List Line :=
  let len := sph.slices * sph.stacks + sph.slices
  linesOfTris (sphereTris (sphereVerts E sph) sph.slices len)
    ++ Line.mark "normals"
    :: linesOfTris (sphereTris (sphereNormals E sph) sph.slices len)

/-- The vertex of C4, phrased with the spec formulas:
`lat = i·π/stacks`, `lon = j·2·π/slices`,
`(r·cos(lon)·sin(lat), r·cos(lat), r·sin(lon)·sin(lat))`. -/
def claimC4_vertex (E : Env) (sph : Sphere) (i j : ℕ) : Point :=
  let lat : ℚ := (i : ℚ) * E.pi / (sph.stacks : ℚ)
  let lon : ℚ := (j : ℚ) * 2 * E.pi / (sph.slices : ℚ)
  ⟨sph.rad * E.cosf lon * E.sinf lat,
   sph.rad * E.cosf lat,
   sph.rad * E.sinf lon * E.sinf lat⟩

/-!
## Bezier patch evaluator
-/

/-- `gen_bezier_get_single_point`: evaluates
`Uᵗ · MPM · V` for `U = [u³,u²,u,1]`, `V = [v³,v²,v,1]`, exactly as the
source accumulates it. -/
def gen_bezier_get_single_point (MPM : Fin 4 → Fin 4 → Point) (u v : ℚ) :
    Point :=
  let tmp : Fin 4 → Point := fun j =>
    padd (padd (padd (pmul (u * u * u) (MPM j 0)) (pmul (u * u) (MPM j 1)))
      (pmul u (MPM j 2))) (MPM j 3)
  padd (padd (padd (pmul (v * v * v) (tmp 0)) (pmul (v * v) (tmp 1)))
    (pmul v (tmp 2))) (tmp 3)

/-- `gen_bezier_patch_single`: builds the 4×4 control matrix
`P[r][c] = cps[idxs[4r+c]]` (both `operator[]` unchecked — an
out-of-range index reads unspecified data, modelled by the `getD`
defaults — the source performs no bounds check), computes `MPM`, and
walks the `(4·tess) × (4·tess)` grid (source loops `i, j = 1 … 4·tess`,
reindexed here to start at 0, so `u_ = i/(4t)`, `u = (i+1)/(4t)`). -/
def gen_bezier_patch_single (M : Fin 4 → Fin 4 → ℚ) (cps : List Point)
    (idxs : List ℕ) (tessellation : ℕ) : List Triangle :=
  let P : Fin 4 → Fin 4 → Point := fun r c =>
    cps.getD (idxs.getD (4 * r.val + c.val) 0) pzero
  let MPM := mult_MPM M P
  (List.range (4 * tessellation)).flatMap fun i =>
    let u0 : ℚ := (i : ℚ) / (4 * (tessellation : ℚ))
    let u1 : ℚ := ((i : ℚ) + 1) / (4 * (tessellation : ℚ))
    (List.range (4 * tessellation)).flatMap fun j =>
      let v0 : ℚ := (j : ℚ) / (4 * (tessellation : ℚ))
      let v1 : ℚ := ((j : ℚ) + 1) / (4 * (tessellation : ℚ))
      gen_rectangle_write_nodivs_intern
        ⟨gen_bezier_get_single_point MPM u1 v0,
         gen_bezier_get_single_point MPM u1 v1,
         gen_bezier_get_single_point MPM u0 v0,
         gen_bezier_get_single_point MPM u0 v1⟩

/-- `gen_bezier_patch_write_intern`: evaluates every patch with the fixed
basis matrix. -/
def gen_bezier_patch_write_intern (cps : List Point)
    (patches : List (List ℕ)) (tessellation : ℕ) : List Triangle :=
  patches.flatMap fun patch => gen_bezier_patch_single bezierM cps patch tessellation

/-- A parsed Bezier input contains a control-point index that is out of
range of the control-point list. -/
def bezierOutOfRange (cps : List Point) (patches : List (List ℕ)) : Prop :=
  ∃ p ∈ patches, ∃ k ∈ p, cps.length ≤ k

instance (cps : List Point) (patches : List (List ℕ)) :
    Decidable (bezierOutOfRange cps patches) := by
  unfold bezierOutOfRange; infer_instance

/-!
## Figure writers (the `gen_write` / `gen_write_divs` macros) and reader
-/

/-- `gen_triangle_write`: header line then the triangle. -/
def gen_triangle_write (t : Triangle) : List Line :=
  Line.mark "triangle" :: gen_triangle_write_intern t

/-- `gen_rectangle_write`: header line then the subdivision triangles. -/
def gen_rectangle_write (E : Env) (rect : Rectangle) (ndivs : ℕ) : List Line :=
  Line.mark "rectangle" :: linesOfTris (gen_rectangle_write_intern E rect ndivs)

/-- `gen_box_write`: header line then the six faces. -/
def gen_box_write (E : Env) (box : Box) (ndivs : ℕ) : List Line :=
  Line.mark "box" :: linesOfTris (gen_box_write_intern E box ndivs)

/-- `gen_cone_write`: header line then the cone triangles. -/
def gen_cone_write (E : Env) (c : Cone) : List Line :=
  Line.mark "cone" :: linesOfTris (gen_cone_write_intern E c)

/-- `gen_cylinder_write`: header line then the cylinder triangles. -/
def gen_cylinder_write (E : Env) (c : Cylinder) : List Line :=
  Line.mark "cylinder" :: linesOfTris (gen_cylinder_write_intern E c)

/-- `gen_sphere_write`: header line then the sphere stream. -/
def gen_sphere_write (E : Env) (sph : Sphere) : List Line :=
  Line.mark "sphere" :: gen_sphere_write_intern E sph

/-- `gen_bezier_patch_write`: header line then the patch triangles (the
file-parsing half is I/O glue; the model starts from the parsed data). -/
def gen_bezier_patch_write (cps : List Point) (patches : List (List ℕ))
    (tessellation : ℕ) : List Line :=
  Line.mark "bezier" :: linesOfTris (gen_bezier_patch_write_intern cps patches tessellation)

/-- The second reader loop of `gen_model_read`: reads every remaining
line as a point.  On a non-point line `sscanf` matches nothing but does
not return `EOF`, so the loop pushes the reset value `Point(0,0,0)`. -/
def gen_model_read_tail : List Line → List Point
  | [] => []
  | Line.pt p :: rest => p :: gen_model_read_tail rest
  | Line.mark _ :: rest => pzero :: gen_model_read_tail rest

/-- The first reader loop of `gen_model_read`: reads points until end of
input or the literal `normals` line (which switches to the second loop);
any other non-point line pushes the reset value, as in the source. -/
def gen_model_read_vec : List Line → List Point × List Point
  | [] => ([], [])
  | Line.pt p :: rest =>
      let r := gen_model_read_vec rest
      (p :: r.1, r.2)
  | Line.mark s :: rest =>
      if s = "normals" then ([], gen_model_read_tail rest)
      else
        let r := gen_model_read_vec rest
        (pzero :: r.1, r.2)

/-- `gen_model_read`: skips the header line, then reads positions and
(after a `normals` line, if any) normals. -/
def gen_model_read (ls : List Line) : List Point × List Point :=
  gen_model_read_vec (ls.drop 1)

/-!
## Concrete inputs used by counterexamples and witnesses
-/

/-- A single control point. -/
def cexCps : List Point := [⟨0, 0, 0⟩]

/-- One patch whose last control-point index (5) is out of range of
`cexCps` (which has length 1). -/
def cexPatches : List (List ℕ) :=
  [[0, 0, 0, 0, 0, 0, 0, 0, 0, 0, 0, 0, 0, 0, 0, 5]]

/-- A unit square with four distinct corners. -/
def cexRect : Rectangle := ⟨⟨0, 0, 0⟩, ⟨0, 0, 1⟩, ⟨1, 0, 0⟩, ⟨1, 0, 1⟩⟩

/-- The triangle stream of C5, phrased from the spec: walk the `n × n`
grid of cells in row-major (`i` outer, `j` inner) order, splitting each
cell into the triangles `(P1,P2,P3)` and `(P3,P2,P4)` of its four
corners, in that order. -/
def claimC5_tris (E : Env) (rect : Rectangle) (n : ℕ) : List Triangle :=
  (List.range n).flatMap fun i =>
    (List.range n).flatMap fun j =>
      [⟨(subdivCell E rect n i j).P1, (subdivCell E rect n i j).P2,
        (subdivCell E rect n i j).P3⟩,
       ⟨(subdivCell E rect n i j).P3, (subdivCell E rect n i j).P2,
        (subdivCell E rect n i j).P4⟩]

/-- The geometry triangles of C3, phrased from the spec: walk a
flattened index `i` from 0 to `S·T + S - 1`, emitting per `i` the two
triangles `(verts[i], verts[i+S+1], verts[i+S])` and
`(verts[i+S+1], verts[i], verts[i+1])`. -/
def claimC3_geomTris (E : Env) (sph : Sphere) : List Triangle :=
  (List.range (sph.slices * sph.stacks + sph.slices)).flatMap fun i =>
    [⟨(sphereVerts E sph).getD i pzero,
      (sphereVerts E sph).getD (i + sph.slices + 1) pzero,
      (sphereVerts E sph).getD (i + sph.slices) pzero⟩,
     ⟨(sphereVerts E sph).getD (i + sph.slices + 1) pzero,
      (sphereVerts E sph).getD i pzero,
      (sphereVerts E sph).getD (i + 1) pzero⟩]

/-- The normal triangles of C3: the identical index pattern over the
normals array. -/
def claimC3_normTris (E : Env) (sph : Sphere) : List Triangle :=
  (List.range (sph.slices * sph.stacks + sph.slices)).flatMap fun i =>
    [⟨(sphereNormals E sph).getD i pzero,
      (sphereNormals E sph).getD (i + sph.slices + 1) pzero,
      (sphereNormals E sph).getD (i + sph.slices) pzero⟩,
     ⟨(sphereNormals E sph).getD (i + sph.slices + 1) pzero,
      (sphereNormals E sph).getD i pzero,
      (sphereNormals E sph).getD (i + 1) pzero⟩]

end Gen

/-- `(A · Q · Aᵀ) i j` as an explicit double sum. -/
theorem mul_mul_transpose_apply (A Q : Matrix (Fin 4) (Fin 4) ℚ)
    (i j : Fin 4) :
    (A * Q * A.transpose) i j
      = ∑ k : Fin 4, ∑ l : Fin 4, A i k * Q k l * A j l := by
  simp only [Matrix.mul_apply, Matrix.transpose_apply, Finset.sum_mul]
  rw [Finset.sum_comm]

/-- The two renderings of the fixed basis matrix agree entrywise. -/
theorem bezierMmat_apply (i j : Fin 4) : Gen.bezierMmat i j = Gen.bezierM i j := by
  revert i j; decide

/-- The fixed basis matrix is symmetric: entry `(a, 0)` equals `(0, a)`. -/
theorem bezierM_symm_zero (a : Fin 4) : Gen.bezierM a 0 = Gen.bezierM 0 a := by
  revert a; decide

/-- The fixed basis matrix is symmetric: entry `(a, 1)` equals `(1, a)`. -/
theorem bezierM_symm_one (a : Fin 4) : Gen.bezierM a 1 = Gen.bezierM 1 a := by
  revert a; decide

/-- The fixed basis matrix is symmetric: entry `(a, 2)` equals `(2, a)`. -/
theorem bezierM_symm_two (a : Fin 4) : Gen.bezierM a 2 = Gen.bezierM 2 a := by
  revert a; decide

/-- The fixed basis matrix is symmetric: entry `(a, 3)` equals `(3, a)`. -/
theorem bezierM_symm_three (a : Fin 4) : Gen.bezierM a 3 = Gen.bezierM 3 a := by
  revert a; decide

/-- C1: with the fixed cubic Bezier basis matrix `M`, the blended control
matrix computed by `mult_MPM` equals the mathematical matrix product
`M * P * Mᵀ`, coordinatewise (the source computes `(M·P)·M`, which agrees
with `M·P·Mᵀ` because this particular `M` is symmetric). -/
theorem C1_mult_MPM_eq_MPMt (P : Fin 4 → Fin 4 → Gen.Point) (i j : Fin 4) :
    (Gen.mult_MPM Gen.bezierM P i j).x
        = (Gen.bezierMmat * Gen.coordMat Gen.Point.x P
            * Gen.bezierMmat.transpose) i j
      ∧ (Gen.mult_MPM Gen.bezierM P i j).y
        = (Gen.bezierMmat * Gen.coordMat Gen.Point.y P
            * Gen.bezierMmat.transpose) i j
      ∧ (Gen.mult_MPM Gen.bezierM P i j).z
        = (Gen.bezierMmat * Gen.coordMat Gen.Point.z P
            * Gen.bezierMmat.transpose) i j := by
  refine ⟨?_, ?_, ?_⟩ <;>
  · rw [mul_mul_transpose_apply]
    simp only [Fin.sum_univ_four, Gen.coordMat, Matrix.of_apply,
      bezierMmat_apply, Gen.mult_MPM, Gen.mult_PM, Gen.mult_MP,
      Gen.mat_dot_product_MP, Gen.mat_dot_product_PM, Gen.padd, Gen.pmul,
      Gen.pzero, bezierM_symm_zero, bezierM_symm_one, bezierM_symm_two,
      bezierM_symm_three]
    ring

/-!
## List helpers
-/

/-- Length of a `flatMap` whose blocks all have the same length. -/
theorem length_flatMap_const {α β : Type} (l : List α) (f : α → List β)
    (k : ℕ) (h : ∀ a ∈ l, (f a).length = k) :
    (l.flatMap f).length = l.length * k := by
  induction l with
  | nil => simp
  | cons a l ih =>
    simp only [List.flatMap_cons, List.length_append, List.length_cons]
    rw [h a (by simp), ih (fun b hb => h b (by simp [hb]))]
    ring

/-- Length of a doubly nested `flatMap` over two ranges with
constant-length blocks. -/
theorem length_flatMap_flatMap {α : Type} (m n : ℕ) (f : ℕ → ℕ → List α)
    (k : ℕ) (h : ∀ i j, (f i j).length = k) :
    ((List.range m).flatMap fun i =>
        (List.range n).flatMap fun j => f i j).length = m * n * k := by
  rw [length_flatMap_const (List.range m) _ (n * k)
    (fun a _ => by
      rw [length_flatMap_const (List.range n) _ k (fun b _ => h a b),
        List.length_range])]
  rw [List.length_range]
  ring

/-- Length of the output of the subdivider: `n` rows of `n` cells of two
triangles. -/
theorem gen_rectangle_write_intern_length (E : Gen.Env) (rect : Gen.Rectangle)
    (n : ℕ) : (Gen.gen_rectangle_write_intern E rect n).length = 2 * n * n := by
  simp only [Gen.gen_rectangle_write_intern]
  rw [length_flatMap_flatMap n n _ 2 ?hblk]
  · ring
  case hblk => exact fun i j => rfl

/-- Length of a single evaluated Bezier patch: a `(4t) × (4t)` grid of
two triangles per cell. -/
theorem gen_bezier_patch_single_length (M : Fin 4 → Fin 4 → ℚ)
    (cps : List Gen.Point) (idxs : List ℕ) (tess : ℕ) :
    (Gen.gen_bezier_patch_single M cps idxs tess).length
      = 4 * tess * (4 * tess) * 2 := by
  simp only [Gen.gen_bezier_patch_single]
  rw [length_flatMap_flatMap (4 * tess) (4 * tess) _ 2 ?hblk2]
  case hblk2 => exact fun i j => rfl

/-- Length of the full Bezier evaluation over all patches. -/
theorem gen_bezier_patch_write_intern_length (cps : List Gen.Point)
    (patches : List (List ℕ)) (tess : ℕ) :
    (Gen.gen_bezier_patch_write_intern cps patches tess).length
      = patches.length * (4 * tess * (4 * tess) * 2) := by
  unfold Gen.gen_bezier_patch_write_intern
  exact length_flatMap_const _ _ _
    (fun p _ => gen_bezier_patch_single_length Gen.bezierM cps p tess)

/-!
## C5 — planar subdivider
-/

/-- C5: for every rectangle with four distinct corners and every
division count `n ≥ 1`, the planar subdivider emits exactly `2·n·n`
triangles, walking the `n × n` cell grid in row-major (`i` outer, `j`
inner) order and splitting each cell into the triangles `(P1,P2,P3)`
and `(P3,P2,P4)` of its corners, in that order. -/
theorem C5_rectangle_subdivision (E : Gen.Env) (rect : Gen.Rectangle) (n : ℕ)
    (hd : rect.P1 ≠ rect.P2 ∧ rect.P1 ≠ rect.P3 ∧ rect.P1 ≠ rect.P4
      ∧ rect.P2 ≠ rect.P3 ∧ rect.P2 ≠ rect.P4 ∧ rect.P3 ≠ rect.P4)
    (hn : 1 ≤ n) :
    Gen.gen_rectangle_write_intern E rect n = Gen.claimC5_tris E rect n
      ∧ (Gen.gen_rectangle_write_intern E rect n).length = 2 * n * n :=
  ⟨rfl, gen_rectangle_write_intern_length E rect n⟩

/-- C5 witness: the subdivision of a concrete unit square at `n = 2`. -/
theorem C5_rectangle_subdivision_witness :
    (Gen.cexRect.P1 ≠ Gen.cexRect.P2 ∧ Gen.cexRect.P1 ≠ Gen.cexRect.P3
        ∧ Gen.cexRect.P1 ≠ Gen.cexRect.P4 ∧ Gen.cexRect.P2 ≠ Gen.cexRect.P3
        ∧ Gen.cexRect.P2 ≠ Gen.cexRect.P4 ∧ Gen.cexRect.P3 ≠ Gen.cexRect.P4)
      ∧ 1 ≤ 2
      ∧ (Gen.gen_rectangle_write_intern Gen.testEnv Gen.cexRect 2
            = Gen.claimC5_tris Gen.testEnv Gen.cexRect 2
          ∧ (Gen.gen_rectangle_write_intern Gen.testEnv Gen.cexRect 2).length
            = 2 * 2 * 2) :=
  ⟨by decide, by decide,
    C5_rectangle_subdivision Gen.testEnv Gen.cexRect 2 (by decide) (by decide)⟩

/-!
## C8 — the subdivider at `n = 0`
-/

/-- C8 counterexample: at `n = 0` the subdivider silently emits an empty
triangle stream — it neither clamps to the two triangles of the undivided quadrilateral nor reports an error (the code has no error channel at all). -/
theorem C8_counterexample :
    Gen.gen_rectangle_write_intern Gen.testEnv Gen.cexRect 0 = []
      ∧ Gen.gen_rectangle_write_intern Gen.testEnv Gen.cexRect 0
          ≠ Gen.gen_rectangle_write_nodivs_intern Gen.cexRect
      ∧ Gen.gen_rectangle_write_intern Gen.testEnv Gen.cexRect 0
          ≠ Gen.gen_rectangle_write_intern Gen.testEnv Gen.cexRect 1 :=
  ⟨rfl, by decide, by decide⟩

/-- C8 amended: when the planar subdivider is called with division count
`n = 0`, its loops do not execute and it emits the empty triangle
stream, for every rectangle — there is no rejection and no clamping. -/
theorem C8_zero_divs_empty (E : Gen.Env) (rect : Gen.Rectangle) :
    Gen.gen_rectangle_write_intern E rect 0 = [] := rfl

/-!
## C2 — Bezier evaluation with an out-of-range index
-/

/-- C2 counterexample: a parsed Bezier input with an out-of-range
control-point index (index 5 into a one-element control list) is not
rejected: the evaluation continues and emits a non-empty triangle
stream. -/
theorem C2_counterexample :
    Gen.bezierOutOfRange Gen.cexCps Gen.cexPatches
      ∧ Gen.gen_bezier_patch_write_intern Gen.cexCps Gen.cexPatches 1 ≠ [] := by
  refine ⟨by decide, ?_⟩
  have h := gen_bezier_patch_write_intern_length Gen.cexCps Gen.cexPatches 1
  intro hnil
  rw [hnil] at h
  simp [Gen.cexPatches] at h

/-- C2 amended: the Bezier evaluator performs no bounds check.  For every
input whose patch list contains an out-of-range control-point index, it
continues — reading unspecified data for the missing control points —
and emits the full `2·(4·tess)²` triangles per patch. -/
theorem C2_no_bounds_check (cps : List Gen.Point) (patches : List (List ℕ))
    (tess : ℕ) (h : Gen.bezierOutOfRange cps patches) :
    (Gen.gen_bezier_patch_write_intern cps patches tess).length
      = patches.length * (4 * tess * (4 * tess) * 2) :=
  gen_bezier_patch_write_intern_length cps patches tess

/-- C2 amended witness: the concrete out-of-range input evaluates to the
full 32-triangle grid. -/
theorem C2_no_bounds_check_witness :
    Gen.bezierOutOfRange Gen.cexCps Gen.cexPatches
      ∧ (Gen.gen_bezier_patch_write_intern Gen.cexCps Gen.cexPatches 1).length
          = (Gen.cexPatches).length * (4 * 1 * (4 * 1) * 2) :=
  ⟨by decide, C2_no_bounds_check Gen.cexCps Gen.cexPatches 1 (by decide)⟩

/-!
## C6 — canonical cone generator
-/

/-- Per-slice triangle count of the cone: tip + base + `stacks-1` quads
of two triangles. -/
theorem claimC6_slice_length (E : Gen.Env) (c : Gen.Cone) (i : ℕ) :
    (Gen.claimC6_slice E c i).length = 2 + (c.stacks - 1) * 2 := by
  simp only [Gen.claimC6_slice, List.length_cons]
  rw [length_flatMap_const _ _ 2 ?hl]
  · rw [List.length_range]; omega
  case hl => exact fun a _ => rfl

/-- C6: for every cone with `slices ≥ 3` and `stacks ≥ 1`, the canonical
cone generator emits per slice one tip triangle with apex
`(0, height, 0)` over a ring of radius `rad/stacks` at height
`height*(stacks-1)/stacks`, one base fan triangle at `y = 0`, and
`stacks-1` side quadrilaterals with lower/upper radii
`rad*(stacks-j)/stacks`, `rad*(stacks-j-1)/stacks` at heights
`height*j/stacks`, `height*(j+1)/stacks`. -/
theorem C6_cone_structure (E : Gen.Env) (c : Gen.Cone)
    (h3 : 3 ≤ c.slices) (h1 : 1 ≤ c.stacks) :
    Gen.gen_cone_write_intern E c
        = (List.range c.slices).flatMap (Gen.claimC6_slice E c)
      ∧ ∀ i, (Gen.claimC6_slice E c i).length = 2 + (c.stacks - 1) * 2 := by
  refine ⟨?_, fun i => claimC6_slice_length E c i⟩
  simp only [Gen.gen_cone_write_intern, Gen.gen_rectangle_write_nodivs_intern]
  refine congrArg _ (funext fun i => ?_)
  simp only [Gen.claimC6_slice, ← mul_div_assoc]

/-- C6 witness: the concrete cone with radius 1, height 2, 3 slices and
2 stacks. -/
theorem C6_cone_structure_witness :
    3 ≤ (3 : ℕ) ∧ 1 ≤ (2 : ℕ)
      ∧ (Gen.gen_cone_write_intern Gen.testEnv ⟨1, 2, 3, 2⟩
            = (List.range 3).flatMap (Gen.claimC6_slice Gen.testEnv ⟨1, 2, 3, 2⟩)
          ∧ ∀ i, (Gen.claimC6_slice Gen.testEnv ⟨1, 2, 3, 2⟩ i).length
            = 2 + (2 - 1) * 2) :=
  ⟨by decide, by decide,
    C6_cone_structure Gen.testEnv ⟨1, 2, 3, 2⟩ (by decide) (by decide)⟩

/-!
## C7 — cylinder generator
-/

/-- C7: every cylinder slice consists of the base fan triangle in order
(ring-point, center, ring-point-next), `stacks` side quadrilaterals split
into two triangles each, and the top fan triangle in order
(center, ring-point, ring-point-next); and for
`slices = 4, stacks = 1, rad = 1, height = 2` the output contains
exactly 16 triangles. -/
theorem C7_cylinder_structure (E : Gen.Env) :
    (∀ c : Gen.Cylinder,
        Gen.gen_cylinder_write_intern E c
          = (List.range c.slices).flatMap (Gen.claimC7_slice E c))
      ∧ (Gen.gen_cylinder_write_intern E ⟨1, 2, 4, 1⟩).length = 16 := by
  constructor
  · intro c
    rfl
  · simp only [Gen.gen_cylinder_write_intern]
    rw [length_flatMap_const _ _ 4 ?hslice]
    · rw [List.length_range]
    case hslice =>
      intro a _
      simp only [List.length_cons, List.length_append]
      rw [length_flatMap_const _ _ 2 ?hquad]
      · simp
      case hquad => exact fun b _ => rfl

/-!
## Sphere grid lemmas
-/

/-- Length of a row-major grid built by `flatMap`/`map` over two
ranges. -/
theorem grid_length {α : Type} (g : ℕ → ℕ → α) (m n : ℕ) :
    ((List.range m).flatMap fun a => (List.range n).map (g a)).length
      = m * n := by
  rw [length_flatMap_const _ _ n
    (fun a _ => by rw [List.length_map, List.length_range])]
  rw [List.length_range]

/-- Row-major indexing into the grid: entry `i*n + j` is `g i j`. -/
theorem grid_getD {α : Type} (g : ℕ → ℕ → α) (m n i j : ℕ) (d : α)
    (hi : i < m) (hj : j < n) :
    ((List.range m).flatMap fun a => (List.range n).map (g a)).getD
        (i * n + j) d = g i j := by
  induction m with
  | zero => exact absurd hi (Nat.not_lt_zero i)
  | succ m ih =>
    rw [List.range_succ, List.flatMap_append]
    rcases Nat.lt_succ_iff_lt_or_eq.mp hi with h | h
    · rw [List.getD_append]
      · exact ih h
      · rw [grid_length]
        calc i * n + j < i * n + n := by omega
          _ = (i + 1) * n := by ring
          _ ≤ m * n := Nat.mul_le_mul_right n (by omega)
    · subst h
      rw [List.getD_append_right]
      · simp only [List.flatMap_cons, List.flatMap_nil, List.append_nil]
        rw [grid_length, show i * n + j - i * n = j from by omega,
          List.getD_eq_getElem?_getD, List.getElem?_map,
          List.getElem?_range hj]
        rfl
      · rw [grid_length]; omega

/-!
## C3 — sphere emission pattern
-/

/-- C3: for every sphere with `slices ≥ 3` and `stacks ≥ 1`, the sphere
writer emits exactly `2·(S·T + S)` geometry triangles by walking the
flattened index `i` and emitting `(verts[i], verts[i+S+1], verts[i+S])`
and `(verts[i+S+1], verts[i], verts[i+1])` per `i`, then a literal
`normals` separator line, then exactly `2·(S·T + S)` normal triangles by
the identical pattern over the normals array. -/
theorem C3_sphere_emission (E : Gen.Env) (sph : Gen.Sphere)
    (h3 : 3 ≤ sph.slices) (h1 : 1 ≤ sph.stacks) :
    Gen.gen_sphere_write_intern E sph
        = Gen.linesOfTris (Gen.claimC3_geomTris E sph)
            ++ Gen.Line.mark "normals"
              :: Gen.linesOfTris (Gen.claimC3_normTris E sph)
      ∧ (Gen.claimC3_geomTris E sph).length
          = 2 * (sph.slices * sph.stacks + sph.slices)
      ∧ (Gen.claimC3_normTris E sph).length
          = 2 * (sph.slices * sph.stacks + sph.slices) := by
  refine ⟨rfl, ?_, ?_⟩
  · simp only [Gen.claimC3_geomTris]
    rw [length_flatMap_const _ _ 2 ?hg]
    · rw [List.length_range]; ring
    case hg => exact fun a _ => rfl
  · simp only [Gen.claimC3_normTris]
    rw [length_flatMap_const _ _ 2 ?hn]
    · rw [List.length_range]; ring
    case hn => exact fun a _ => rfl

/-- C3 witness: the sphere with radius 1, 3 slices, 1 stack. -/
theorem C3_sphere_emission_witness :
    3 ≤ (3 : ℕ) ∧ 1 ≤ (1 : ℕ)
      ∧ (Gen.gen_sphere_write_intern Gen.testEnv ⟨1, 3, 1⟩
            = Gen.linesOfTris (Gen.claimC3_geomTris Gen.testEnv ⟨1, 3, 1⟩)
                ++ Gen.Line.mark "normals"
                  :: Gen.linesOfTris (Gen.claimC3_normTris Gen.testEnv ⟨1, 3, 1⟩)
          ∧ (Gen.claimC3_geomTris Gen.testEnv ⟨1, 3, 1⟩).length = 2 * (3 * 1 + 3)
          ∧ (Gen.claimC3_normTris Gen.testEnv ⟨1, 3, 1⟩).length = 2 * (3 * 1 + 3)) :=
  ⟨by decide, by decide,
    C3_sphere_emission Gen.testEnv ⟨1, 3, 1⟩ (by decide) (by decide)⟩

/-!
## C4 — sphere vertex grid
-/

/-- C4: for every sphere with `slices ≥ 3` and `stacks ≥ 1`, the
precomputed grid has `(stacks+1)·(slices+1)` vertices in row-major order
with longitude fastest-varying; the vertex at stack `i`, slice `j` is
`(r·cos(lon)·sin(lat), r·cos(lat), r·sin(lon)·sin(lat))` with
`lat = i·π/stacks`, `lon = j·2·π/slices`, and its stored normal is the
normalized position vector. -/
theorem C4_sphere_vertices (E : Gen.Env) (sph : Gen.Sphere)
    (h3 : 3 ≤ sph.slices) (h1 : 1 ≤ sph.stacks) :
    (Gen.sphereVerts E sph).length = (sph.stacks + 1) * (sph.slices + 1)
      ∧ (Gen.sphereNormals E sph).length = (sph.stacks + 1) * (sph.slices + 1)
      ∧ ∀ i j, i ≤ sph.stacks → j ≤ sph.slices →
          (Gen.sphereVerts E sph).getD (i * (sph.slices + 1) + j) Gen.pzero
              = Gen.claimC4_vertex E sph i j
            ∧ (Gen.sphereNormals E sph).getD (i * (sph.slices + 1) + j) Gen.pzero
              = Gen.normalize E (Gen.claimC4_vertex E sph i j) := by
  have hvc : ∀ i j : ℕ, Gen.sphereVert E sph i j = Gen.claimC4_vertex E sph i j := by
    intro i j
    have hlat : (i : ℚ) / (sph.stacks : ℚ) * E.pi
        = (i : ℚ) * E.pi / (sph.stacks : ℚ) := by ring
    have hlon : (j : ℚ) / (sph.slices : ℚ) * 2 * E.pi
        = (j : ℚ) * 2 * E.pi / (sph.slices : ℚ) := by ring
    simp only [Gen.sphereVert, Gen.claimC4_vertex, hlat, hlon]
  refine ⟨grid_length (fun a b => Gen.sphereVert E sph a b) (sph.stacks + 1)
      (sph.slices + 1),
    grid_length (fun a b => Gen.normalize E (Gen.sphereVert E sph a b))
      (sph.stacks + 1) (sph.slices + 1), ?_⟩
  intro i j hi hj
  constructor
  · exact (grid_getD (fun a b => Gen.sphereVert E sph a b) (sph.stacks + 1)
      (sph.slices + 1) i j Gen.pzero (by omega) (by omega)).trans (hvc i j)
  · exact (grid_getD (fun a b => Gen.normalize E (Gen.sphereVert E sph a b))
      (sph.stacks + 1) (sph.slices + 1) i j Gen.pzero (by omega)
      (by omega)).trans (congrArg (Gen.normalize E) (hvc i j))

/-- C4 witness: the sphere with radius 2, 3 slices, 2 stacks. -/
theorem C4_sphere_vertices_witness :
    3 ≤ (3 : ℕ) ∧ 1 ≤ (2 : ℕ)
      ∧ ((Gen.sphereVerts Gen.testEnv ⟨2, 3, 2⟩).length = (2 + 1) * (3 + 1)
          ∧ (Gen.sphereNormals Gen.testEnv ⟨2, 3, 2⟩).length = (2 + 1) * (3 + 1)
          ∧ ∀ i j, i ≤ 2 → j ≤ 3 →
              (Gen.sphereVerts Gen.testEnv ⟨2, 3, 2⟩).getD (i * (3 + 1) + j) Gen.pzero
                  = Gen.claimC4_vertex Gen.testEnv ⟨2, 3, 2⟩ i j
                ∧ (Gen.sphereNormals Gen.testEnv ⟨2, 3, 2⟩).getD (i * (3 + 1) + j) Gen.pzero
                  = Gen.normalize Gen.testEnv (Gen.claimC4_vertex Gen.testEnv ⟨2, 3, 2⟩ i j)) :=
  ⟨by decide, by decide,
    C4_sphere_vertices Gen.testEnv ⟨2, 3, 2⟩ (by decide) (by decide)⟩

/-!
## C10 — sphere index bounds
-/

/-- C10: for every sphere with `1 ≤ slices ≤ stacks`, the vertex and
normal arrays have `(slices+1)·(stacks+1)` entries and every index used
by the emission loops (`i`, `i+1`, `i+slices`, `i+slices+1` for
`i < slices·stacks + slices`) is strictly within bounds. -/
theorem C10_sphere_in_bounds (E : Gen.Env) (sph : Gen.Sphere)
    (h1 : 1 ≤ sph.slices) (h2 : sph.slices ≤ sph.stacks) :
    (Gen.sphereVerts E sph).length = (sph.slices + 1) * (sph.stacks + 1)
      ∧ (Gen.sphereNormals E sph).length = (sph.slices + 1) * (sph.stacks + 1)
      ∧ ∀ i < sph.slices * sph.stacks + sph.slices,
          i + sph.slices + 1 < (Gen.sphereVerts E sph).length
            ∧ i + sph.slices < (Gen.sphereVerts E sph).length
            ∧ i + 1 < (Gen.sphereVerts E sph).length
            ∧ i < (Gen.sphereVerts E sph).length := by
  have hlen : (Gen.sphereVerts E sph).length
      = (sph.slices + 1) * (sph.stacks + 1) :=
    (grid_length (fun a b => Gen.sphereVert E sph a b) (sph.stacks + 1)
      (sph.slices + 1)).trans (by ring)
  have hlen2 : (Gen.sphereNormals E sph).length
      = (sph.slices + 1) * (sph.stacks + 1) :=
    (grid_length (fun a b => Gen.normalize E (Gen.sphereVert E sph a b))
      (sph.stacks + 1) (sph.slices + 1)).trans (by ring)
  refine ⟨hlen, hlen2, ?_⟩
  intro i hi
  rw [hlen, show (sph.slices + 1) * (sph.stacks + 1)
    = sph.slices * sph.stacks + sph.slices + sph.stacks + 1 from by ring]
  revert hi
  generalize sph.slices * sph.stacks = Q
  intro hi
  omega

/-- C10 witness: the sphere with radius 1, 1 slice, 2 stacks. -/
theorem C10_sphere_in_bounds_witness :
    1 ≤ (1 : ℕ) ∧ 1 ≤ (2 : ℕ)
      ∧ ((Gen.sphereVerts Gen.testEnv ⟨1, 1, 2⟩).length = (1 + 1) * (2 + 1)
          ∧ (Gen.sphereNormals Gen.testEnv ⟨1, 1, 2⟩).length = (1 + 1) * (2 + 1)
          ∧ ∀ i < 1 * 2 + 1,
              i + 1 + 1 < (Gen.sphereVerts Gen.testEnv ⟨1, 1, 2⟩).length
                ∧ i + 1 < (Gen.sphereVerts Gen.testEnv ⟨1, 1, 2⟩).length
                ∧ i + 1 < (Gen.sphereVerts Gen.testEnv ⟨1, 1, 2⟩).length
                ∧ i < (Gen.sphereVerts Gen.testEnv ⟨1, 1, 2⟩).length) :=
  ⟨by decide, by decide,
    C10_sphere_in_bounds Gen.testEnv ⟨1, 1, 2⟩ (by decide) (by decide)⟩

/-!
## C9 — round-trip through the reader
-/

/-- The second reader loop returns exactly a list of point lines. -/
theorem gen_model_read_tail_map (ps : List Gen.Point) :
    Gen.gen_model_read_tail (ps.map Gen.Line.pt) = ps := by
  induction ps with
  | nil => rfl
  | cons p ps ih => simp [Gen.gen_model_read_tail, ih]

/-- The first reader loop on a stream of point lines only. -/
theorem gen_model_read_vec_map (ps : List Gen.Point) :
    Gen.gen_model_read_vec (ps.map Gen.Line.pt) = (ps, []) := by
  induction ps with
  | nil => rfl
  | cons p ps ih => simp [Gen.gen_model_read_vec, ih]

/-- The first reader loop on point lines, a `normals` separator, and
more point lines. -/
theorem gen_model_read_vec_map_normals (ps ns : List Gen.Point) :
    Gen.gen_model_read_vec
        (ps.map Gen.Line.pt ++ Gen.Line.mark "normals" :: ns.map Gen.Line.pt)
      = (ps, ns) := by
  induction ps with
  | nil => simp [Gen.gen_model_read_vec, gen_model_read_tail_map]
  | cons p ps ih => simp [Gen.gen_model_read_vec, ih]

/-- Serialising a triangle list emits exactly the point lines of its
flattened corner list. -/
theorem linesOfTris_eq_map (ts : List Gen.Triangle) :
    Gen.linesOfTris ts = (Gen.triPoints ts).map Gen.Line.pt := by
  induction ts with
  | nil => rfl
  | cons t ts ih =>
    simp only [Gen.linesOfTris, Gen.triPoints, List.flatMap_cons,
      List.map_append] at ih ⊢
    rw [ih]
    rfl

/-- C9: reading back the written stream of any generator with `gen_model_read`
reproduces the ordered list of written position triplets, and — for the
sphere, whose stream has a `normals` section — the ordered normals
list. -/
theorem C9_roundtrip (E : Gen.Env) :
    (∀ t : Gen.Triangle,
        Gen.gen_model_read (Gen.gen_triangle_write t) = ([t.P1, t.P2, t.P3], []))
      ∧ (∀ (rect : Gen.Rectangle) (n : ℕ),
          Gen.gen_model_read (Gen.gen_rectangle_write E rect n)
            = (Gen.triPoints (Gen.gen_rectangle_write_intern E rect n), []))
      ∧ (∀ (box : Gen.Box) (n : ℕ),
          Gen.gen_model_read (Gen.gen_box_write E box n)
            = (Gen.triPoints (Gen.gen_box_write_intern E box n), []))
      ∧ (∀ c : Gen.Cone,
          Gen.gen_model_read (Gen.gen_cone_write E c)
            = (Gen.triPoints (Gen.gen_cone_write_intern E c), []))
      ∧ (∀ c : Gen.Cylinder,
          Gen.gen_model_read (Gen.gen_cylinder_write E c)
            = (Gen.triPoints (Gen.gen_cylinder_write_intern E c), []))
      ∧ (∀ (cps : List Gen.Point) (patches : List (List ℕ)) (tess : ℕ),
          Gen.gen_model_read (Gen.gen_bezier_patch_write cps patches tess)
            = (Gen.triPoints (Gen.gen_bezier_patch_write_intern cps patches tess), []))
      ∧ (∀ sph : Gen.Sphere,
          Gen.gen_model_read (Gen.gen_sphere_write E sph)
            = (Gen.triPoints (Gen.sphereTris (Gen.sphereVerts E sph) sph.slices
                  (sph.slices * sph.stacks + sph.slices)),
               Gen.triPoints (Gen.sphereTris (Gen.sphereNormals E sph) sph.slices
                  (sph.slices * sph.stacks + sph.slices)))) := by
  refine ⟨?_, ?_, ?_, ?_, ?_, ?_, ?_⟩
  · intro t
    exact gen_model_read_vec_map [t.P1, t.P2, t.P3]
  · intro rect n
    simp [Gen.gen_model_read, Gen.gen_rectangle_write, linesOfTris_eq_map,
      gen_model_read_vec_map]
  · intro box n
    simp [Gen.gen_model_read, Gen.gen_box_write, linesOfTris_eq_map,
      gen_model_read_vec_map]
  · intro c
    simp [Gen.gen_model_read, Gen.gen_cone_write, linesOfTris_eq_map,
      gen_model_read_vec_map]
  · intro c
    simp [Gen.gen_model_read, Gen.gen_cylinder_write, linesOfTris_eq_map,
      gen_model_read_vec_map]
  · intro cps patches tess
    simp [Gen.gen_model_read, Gen.gen_bezier_patch_write, linesOfTris_eq_map,
      gen_model_read_vec_map]
  · intro sph
    simp [Gen.gen_model_read, Gen.gen_sphere_write, Gen.gen_sphere_write_intern,
      linesOfTris_eq_map, gen_model_read_vec_map_normals]
